import Mathlib

/-!
Verification development for the NeatReflectionCodeGen code generator
(`src/NeatReflectionCodeGen/src/CodeGenerator.cpp`).

The converter walks the parsed module-interface graph (the `ifc` object
graph) of one translation unit and emits C++ source text that registers
reflection metadata.  We shallow-embed the data model and the rendering
functions here: the read-only, acyclic, index-addressed `ifc` graph is
modelled as inductive trees (each node carries its sub-graph, including
the home-scope chain), fallible operations (`ContextualException` throws)
return `Except String`, and the recursive renderers take an explicit
fuel argument so that they are structurally recursive and evaluate by
`rfl`/`decide`; running out of fuel yields a distinguished error that a
real (finite, acyclic) graph never produces.

Machine details that do not affect the rendered text (index tables,
string interning, `std::format`) are flattened: names are `String`s,
sequences are `List`s.  `assert(...)` statements are modelled with their
release-build (NDEBUG) semantics: they do not alter control flow.
-/

/-- The `ifc::Access`: {None, Private, Protected, Public}.  `None` means
"unspecified, use the contextual default". -/
inductive Access where
  | None
  | Private
  | Protected
  | Public
deriving DecidableEq

/-- The `ifc::TypeSign` of a fundamental type. -/
inductive TypeSign where
  | Plain
  | Signed
  | Unsigned
deriving DecidableEq

/-- The `ifc::TypePrecision` of a fundamental type. -/
inductive TypePrecision where
  | Default
  | Short
  | Long
  | Bit8
  | Bit16
  | Bit32
  | Bit64
  | Bit128
deriving DecidableEq

/-- The `ifc::TypeBasis`: the basis keyword of a fundamental type, which in
the ifc format also carries the kind of a scope (Class / Struct / Union /
Namespace).  We include the constructors the code generator names plus
two further members of the real enumeration (`Nullptr`, `Enum`) so that
the `default` arm of the basis switch is inhabited. -/
inductive TypeBasis where
  | Void
  | Bool
  | Char
  | Wchar_t
  | Int
  | Float
  | Double
  | Nullptr
  | Enum
  | Class
  | Struct
  | Union
  | Namespace
deriving DecidableEq

/-- The `ifc::UnitSort` of the translation unit described by the artifact's
header.  The converter only accepts `Primary`. -/
inductive UnitSort where
  | Source
  | Primary
  | Partition
  | Header
  | ExportedTU
deriving DecidableEq

/-- The `ifc::FundamentalType`: basis + precision + sign. -/
structure FundamentalType where
  basis : TypeBasis
  precision : TypePrecision
  sign : TypeSign
deriving DecidableEq

/-- The `ifc::Qualifiers` is a bitset {Const, Volatile, Restrict}; we model
it as three Booleans (`ifc::has_qualifier` becomes field access). -/
structure Qualifiers where
  const : Bool
  volatile : Bool
  restrict : Bool
deriving DecidableEq

/-- The `ifc::DeclSort`: the tag of the declaration variant. -/
inductive DeclSort where
  | Variable
  | Field
  | Scope
  | Intrinsic
  | Enumeration
  | Alias
  | Template
  | Concept
  | Function
  | Method
  | Constructor
  | Destructor
  | UsingDeclaration
  | Bitfield
  | PartialSpecialization
  | Reference
  | InheritedConstructor
  | Parameter
  | VendorExtension
  | Enumerator
  | Temploid
  | ExplicitSpecialization
  | ExplicitInstantiation
  | UsingDirective
  | Friend
  | Expansion
  | DeductionGuide
  | Barren
  | Tuple
  | SyntaxTree
  | Property
  | OutputSegment
deriving DecidableEq

mutual

/-- The `ifc::TypeIndex` targets: the tagged type variant (`ifc::TypeSort`
dispatch in `render_full_typename`).  Index references into the type
tables become direct sub-terms.  `Base` carries the referenced type and
its access (the fields of `ifc::BaseType` the generator reads);
`Function` carries target (return type) and optional source (parameter
tuple, a null `TypeIndex` when absent).  The payload-free constructors
are the variants the generator leaves unsupported. -/
inductive Ty : Type where
  | Fundamental (f : FundamentalType)
  | Designated (decl : Decl)
  | Pointer (pointee : Ty)
  | LvalueReference (referee : Ty)
  | RvalueReference (referee : Ty)
  | Qualified (qualifiers : Qualifiers) (unqualified : Ty)
  | Base (type : Ty) (access : Access)
  | Placeholder (elaboration : Option Ty)
  | Tuple (elements : List Ty)
  | Function (target : Ty) (source : Option Ty)
  | Method
  | Expansion
  | PointerToMember
  | Decltype
  | Forall
  | Unaligned
  | VendorExtension
  | Tor
  | Syntactic
  | SyntaxTree

/-- The `ifc::DeclIndex` targets: the tagged declaration variant.  Each
supported variant carries the fields the generator reads; in particular
the home-scope back-reference becomes an optional parent declaration
(`none` models a null `DeclIndex`, i.e. the global scope).
`Scope` additionally carries its kind (`ifc::get_kind`, the basis of the
scope's fundamental type), the `BasicSpecifiers::NonExported` bit, the
optional base-class specifier, the member sequence (its initializer's
scope descriptor) and the friendship trait (`trait_friendship_of_class`;
the asserted invariant is that those entries are `Friend` declarations,
so we store their `entity` expressions directly).
`MethodDecl` stores the target/source of its method type (the code
asserts `method.type.sort() == TypeSort::Method` and reads exactly those
two components). -/
inductive Decl : Type where
  | Variable (name : String) (home_scope : Option Decl)
  | Field (name : String) (type : Ty) (access : Access) (home_scope : Option Decl)
  | Scope (name : String) (kind : TypeBasis) (non_exported : Bool)
      (base : Option Ty) (members : List Decl) (friends : List Expr)
      (home_scope : Option Decl)
  | Intrinsic (name : String) (home_scope : Option Decl)
  | Enumeration (name : String) (home_scope : Option Decl)
  | Alias (name : String) (home_scope : Option Decl)
  | Template (name : String) (home_scope : Option Decl)
  | Concept (name : String) (home_scope : Option Decl)
  | Function (name : String) (home_scope : Option Decl)
  | MethodDecl (name : String) (target : Ty) (source : Option Ty)
      (access : Access) (home_scope : Option Decl)
  | Constructor (name : String) (home_scope : Option Decl)
  | Destructor (name : String) (home_scope : Option Decl)
  | UsingDeclaration (home_scope : Option Decl)
  | Bitfield
  | PartialSpecialization
  | Reference
  | InheritedConstructor
  | Parameter (name : String)
  | VendorExtension
  | Enumerator (name : String)
  | Temploid
  | ExplicitSpecialization
  | ExplicitInstantiation
  | UsingDirective
  | FriendDecl (entity : Expr)
  | Expansion
  | DeductionGuide
  | Barren
  | TupleDecl
  | SyntaxTree
  | Property
  | OutputSegment

/-- The `ifc::ExprIndex` targets, restricted to what `reflects_private_members`
dispatches on: a `NamedDecl` expression carries its resolved declaration
and its type; `TemplateId` and `Literal` stand for the unsupported
expression sorts (logged and skipped). -/
inductive Expr : Type where
  | NamedDecl (resolution : Decl) (type : Ty)
  | TemplateId
  | Literal

end

/-- The tag of a declaration (`DeclIndex::sort()`). -/
def declSortOf : Decl → DeclSort
  | .Variable _ _ => .Variable
  | .Field _ _ _ _ => .Field
  | .Scope _ _ _ _ _ _ _ => .Scope
  | .Intrinsic _ _ => .Intrinsic
  | .Enumeration _ _ => .Enumeration
  | .Alias _ _ => .Alias
  | .Template _ _ => .Template
  | .Concept _ _ => .Concept
  | .Function _ _ => .Function
  | .MethodDecl _ _ _ _ _ => .Method
  | .Constructor _ _ => .Constructor
  | .Destructor _ _ => .Destructor
  | .UsingDeclaration _ => .UsingDeclaration
  | .Bitfield => .Bitfield
  | .PartialSpecialization => .PartialSpecialization
  | .Reference => .Reference
  | .InheritedConstructor => .InheritedConstructor
  | .Parameter _ => .Parameter
  | .VendorExtension => .VendorExtension
  | .Enumerator _ => .Enumerator
  | .Temploid => .Temploid
  | .ExplicitSpecialization => .ExplicitSpecialization
  | .ExplicitInstantiation => .ExplicitInstantiation
  | .UsingDirective => .UsingDirective
  | .FriendDecl _ => .Friend
  | .Expansion => .Expansion
  | .DeductionGuide => .DeductionGuide
  | .Barren => .Barren
  | .TupleDecl => .Tuple
  | .SyntaxTree => .SyntaxTree
  | .Property => .Property
  | .OutputSegment => .OutputSegment

/-- The `magic_enum::enum_name` on a `DeclSort` value. -/
def declSortName : DeclSort → String
  | .Variable => "Variable"
  | .Field => "Field"
  | .Scope => "Scope"
  | .Intrinsic => "Intrinsic"
  | .Enumeration => "Enumeration"
  | .Alias => "Alias"
  | .Template => "Template"
  | .Concept => "Concept"
  | .Function => "Function"
  | .Method => "Method"
  | .Constructor => "Constructor"
  | .Destructor => "Destructor"
  | .UsingDeclaration => "UsingDeclaration"
  | .Bitfield => "Bitfield"
  | .PartialSpecialization => "PartialSpecialization"
  | .Reference => "Reference"
  | .InheritedConstructor => "InheritedConstructor"
  | .Parameter => "Parameter"
  | .VendorExtension => "VendorExtension"
  | .Enumerator => "Enumerator"
  | .Temploid => "Temploid"
  | .ExplicitSpecialization => "ExplicitSpecialization"
  | .ExplicitInstantiation => "ExplicitInstantiation"
  | .UsingDirective => "UsingDirective"
  | .Friend => "Friend"
  | .Expansion => "Expansion"
  | .DeductionGuide => "DeductionGuide"
  | .Barren => "Barren"
  | .Tuple => "Tuple"
  | .SyntaxTree => "SyntaxTree"
  | .Property => "Property"
  | .OutputSegment => "OutputSegment"

/-- The `magic_enum::enum_name` on a `TypeSort` value (only needed for the
unsupported arms of `render_full_typename`). -/
def tySortName : Ty → String
  | .Fundamental _ => "Fundamental"
  | .Designated _ => "Designated"
  | .Pointer _ => "Pointer"
  | .LvalueReference _ => "LvalueReference"
  | .RvalueReference _ => "RvalueReference"
  | .Qualified _ _ => "Qualified"
  | .Base _ _ => "Base"
  | .Placeholder _ => "Placeholder"
  | .Tuple _ => "Tuple"
  | .Function _ _ => "Function"
  | .Method => "Method"
  | .Expansion => "Expansion"
  | .PointerToMember => "PointerToMember"
  | .Decltype => "Decltype"
  | .Forall => "Forall"
  | .Unaligned => "Unaligned"
  | .VendorExtension => "VendorExtension"
  | .Tor => "Tor"
  | .Syntactic => "Syntactic"
  | .SyntaxTree => "SyntaxTree"

/-- The `magic_enum::enum_name` on a `TypePrecision` value. -/
def precisionName : TypePrecision → String
  | .Default => "Default"
  | .Short => "Short"
  | .Long => "Long"
  | .Bit8 => "Bit8"
  | .Bit16 => "Bit16"
  | .Bit32 => "Bit32"
  | .Bit64 => "Bit64"
  | .Bit128 => "Bit128"

/-- The `magic_enum::enum_name` on a `TypeBasis` value. -/
def basisName : TypeBasis → String
  | .Void => "Void"
  | .Bool => "Bool"
  | .Char => "Char"
  | .Wchar_t => "Wchar_t"
  | .Int => "Int"
  | .Float => "Float"
  | .Double => "Double"
  | .Nullptr => "Nullptr"
  | .Enum => "Enum"
  | .Class => "Class"
  | .Struct => "Struct"
  | .Union => "Union"
  | .Namespace => "Namespace"

/-- Concatenation of a list of strings in order (the generator's
repeated `+=` accumulation). -/
def strConcat : List String → String
  | [] => ""
  | s :: rest => s ++ strConcat rest

/-- Error text standing for the model's recursion-fuel exhaustion; a
finite acyclic input graph never produces it with enough fuel. -/
def fuelExhausted : String := "MODEL: recursion fuel exhausted"

/-- The `CodeGenerator::render_as_neat_access_enum(ifc::Access, std::string_view)`.
The throw after the `switch` is unreachable in this model because `Access`
has exactly the four defined values. -/
def render_as_neat_access_enum (access : Access) (value_for_none : String) : String :=
  match access with
  | .None => value_for_none
  | .Private => "Neat::Access::Private"
  | .Protected => "Neat::Access::Protected"
  | .Public => "Neat::Access::Public"

/-- The `CodeGenerator::render(ifc::Qualifiers)`: `const ` then `volatile `;
the `Restrict` bit is tested and explicitly ignored. -/
def render_qualifiers (qualifiers : Qualifiers) : String :=
  (if qualifiers.const then "const " else "") ++
  (if qualifiers.volatile then "volatile " else "")

/-- The `<UNEXPECTED_BITNESS {}>` marker of the precision switch. -/
def unexpected_bitness (p : TypePrecision) : String :=
  "<UNEXPECTED_BITNESS " ++ precisionName p ++ ">"

/-- The basis switch at the end of
`CodeGenerator::render_full_typename(const ifc::FundamentalType&)`,
appending the basis keyword (or the sic-spelled unexpected marker) to the
accumulator. -/
def append_basis_keyword (rendered : String) (b : TypeBasis) : String :=
  rendered ++
    match b with
    | .Void => "void"
    | .Bool => "bool"
    | .Char => "char"
    | .Wchar_t => "wchar_t"
    | .Int => "int"
    | .Float => "float"
    | .Double => "double"
    | b => "<UNEXPECTED_FUNCAMENTAL_TYPE " ++ basisName b ++ ">"

/-- The `CodeGenerator::render_full_typename(const ifc::FundamentalType&)`.
`Sum.inl` models an early `return` out of the precision switch (which
discards the accumulated sign prefix and skips the basis switch);
`Sum.inr` is the accumulator falling through to the basis switch.  The
C++ `Bit8`/`Bit16`/`Bit32` arms fall through into one another when the
basis is not `Char`; each fallthrough only re-tests `basis == Char`, so
the observable result of that chain is the `Bit128` arm's marker with
the original precision's name, which is what the non-`Char` branches
below produce directly. -/
def render_fundamental (t : FundamentalType) : String :=
  let rendered := if t.sign = TypeSign.Unsigned then "unsigned " else ""
  let after_precision : String ⊕ String :=
    match t.precision with
    | .Default => Sum.inr rendered
    | .Short => Sum.inl "short"
    | .Long => Sum.inr (rendered ++ "long ")
    | .Bit64 => Sum.inl "long long"
    | .Bit8 =>
        if t.basis = TypeBasis.Char then Sum.inl "char8_t"
        else Sum.inr (rendered ++ unexpected_bitness .Bit8)
    | .Bit16 =>
        if t.basis = TypeBasis.Char then Sum.inl "char16_t"
        else Sum.inr (rendered ++ unexpected_bitness .Bit16)
    | .Bit32 =>
        if t.basis = TypeBasis.Char then Sum.inl "char32_t"
        else Sum.inr (rendered ++ unexpected_bitness .Bit32)
    | .Bit128 => Sum.inr (rendered ++ unexpected_bitness .Bit128)
  match after_precision with
  | Sum.inl early => early
  | Sum.inr rendered => append_basis_keyword rendered t.basis

/-- The `CodeGenerator::render_refered_declaration`: the cases the switch
names read the declaration's (user) name; the default arm asserts in a
debug build and returns the `<UNEXPECTED_DECLSORT {}>` marker. -/
def render_refered_declaration : Decl → String
  | .Parameter name => name
  | .Scope name _ _ _ _ _ _ => name
  | .Template name _ => name
  | .Function name _ => name
  | .Enumeration name _ => name
  | d => "<UNEXPECTED_DECLSORT " ++ declSortName (declSortOf d) ++ ">"

/-- The home-scope extraction switch at the top of
`CodeGenerator::render_namespace`: the thirteen supported variants yield
their `home_scope` field, every other variant throws a
`ContextualException`. -/
def home_scope_of : Decl → Except String (Option Decl)
  | .Variable _ h => .ok h
  | .Field _ _ _ h => .ok h
  | .Scope _ _ _ _ _ _ h => .ok h
  | .Intrinsic _ h => .ok h
  | .Enumeration _ h => .ok h
  | .Alias _ h => .ok h
  | .Template _ h => .ok h
  | .Concept _ h => .ok h
  | .Function _ h => .ok h
  | .MethodDecl _ _ _ _ h => .ok h
  | .Constructor _ h => .ok h
  | .Destructor _ h => .ok h
  | .UsingDeclaration h => .ok h
  | d => .error ("Cannot get the home_scope for a decl sort of: " ++
      declSortName (declSortOf d))

/-- The `CodeGenerator::render_namespace`: resolve the declaration's
home scope (throwing for unsupported variants), return the empty prefix
for a null home scope, otherwise recursively render the home scope's own
prefix plus its name, returning the empty string instead of appending
`::` when that concatenation is empty. -/
def render_namespace : Nat → Decl → Except String String
  | 0, _ => .error fuelExhausted
  | fuel + 1, d =>
    match home_scope_of d with
    | .error e => .error e
    | .ok none => .ok ""
    | .ok (some home) =>
      match render_namespace fuel home with
      | .error e => .error e
      | .ok r =>
        let rendered_namespace := r ++ render_refered_declaration home
        if rendered_namespace = "" then .ok ""
        else .ok (rendered_namespace ++ "::")

/-- The `CodeGenerator::render_full_typename(ifc::TypeIndex)`: dispatch over
the type variant.  The `Placeholder`-without-elaboration arm asserts in a
debug build and returns the literal `"PLACEHOLDER_TYPE"`; the listed
unsupported variants return the `<UNSUPPORTED_TYPE {}>` marker. -/
def render_full_typename : Nat → Ty → Except String String
  | 0, _ => .error fuelExhausted
  | fuel + 1, t =>
    match t with
    | .Fundamental f => .ok (render_fundamental f)
    | .Designated decl =>
        match render_namespace fuel decl with
        | .error e => .error e
        | .ok ns => .ok (ns ++ render_refered_declaration decl)
    | .Pointer pointee => do
        let s ← render_full_typename fuel pointee
        .ok (s ++ "*")
    | .LvalueReference referee => do
        let s ← render_full_typename fuel referee
        .ok (s ++ "&")
    | .RvalueReference referee => do
        let s ← render_full_typename fuel referee
        .ok (s ++ "&&")
    | .Qualified qualifiers unqualified => do
        let s ← render_full_typename fuel unqualified
        .ok (render_qualifiers qualifiers ++ s)
    | .Base type _ => render_full_typename fuel type
    | .Placeholder elaboration =>
        match elaboration with
        | some e => render_full_typename fuel e
        | none => .ok "PLACEHOLDER_TYPE"
    | .Tuple elements => do
        let parts ← elements.mapM (render_full_typename fuel)
        .ok (String.intercalate ", " parts)
    | .Function target source => do
        let return_type ← render_full_typename fuel target
        let parameter_types ← match source with
          | none => pure ""
          | some s => render_full_typename fuel s
        .ok (return_type ++ " (" ++ parameter_types ++ ")")
    | t => .ok ("<UNSUPPORTED_TYPE " ++ tySortName t ++ ">")

/-- Modelled from the spec: `is_member_publicly_accessible` is declared
in `CodeGenerator.h`, a header that is not among the sources (only its
two call sites in `CodeGenerator::render_members` are).  Spec §4.2: "A
member (Field or Method) is emitted only if: its effective access is
Public (explicit Public, or None combined with a Struct default of
Public), OR the enclosing type has been marked private-reflecting." -/
def is_member_publicly_accessible (access : Access) (kind : TypeBasis)
    (reflect_private_members : Bool) : Bool :=
  reflect_private_members ||
    match access with
    | .Public => true
    | .None => kind = TypeBasis.Struct
    | _ => false

/-- Modelled from the spec: the call
`render_as_neat_access_enum(method.access)` relies on a defaulted
`value_for_none` argument declared in the missing `CodeGenerator.h`; the
spec does not record its value, and no claim depends on it.  We use the
empty string. -/
def method_access_value_for_none : String := ""

/-- The field registration fragment
`Field::create<{0}, {1}, &{0}::{2}>("{2}", {3}), `. -/
def field_fragment (type_name type_str field_name access_string : String) : String :=
  "Field::create<" ++ type_name ++ ", " ++ type_str ++ ", &" ++ type_name ++
    "::" ++ field_name ++ ">(\"" ++ field_name ++ "\", " ++ access_string ++ "), "

/-- The method registration fragment
`Method::create<&{0}::{3}, {0}, {1}{2}>("{3}", {4}), `. -/
def method_fragment (type_name return_type param_types method_name access_string : String) :
    String :=
  "Method::create<&" ++ type_name ++ "::" ++ method_name ++ ", " ++ type_name ++
    ", " ++ return_type ++ param_types ++ ">(\"" ++ method_name ++ "\", " ++
    access_string ++ "), "

/-- The `param_types` computation in the `Method` arm of
`CodeGenerator::render_members`: empty for a null source, otherwise
`", "` followed by the rendered parameter tuple. -/
def render_method_param_types (fuel : Nat) : Option Ty → Except String String
  | none => .ok ""
  | some s => do
      let p ← render_full_typename fuel s
      .ok (", " ++ p)

/-- The `CodeGenerator::render_members`: walk the scope's member sequence in
declaration order; for a `Field` or `Method` member render its type(s),
name and access (these renders happen before the visibility check, so a
rendering failure aborts even for a member that would be filtered out),
then append its fragment when `is_member_publicly_accessible` passes.
All other member sorts are skipped.  Returns (fields, methods). -/
def render_members (fuel : Nat) (type_name : String) (kind : TypeBasis)
    (reflect_private_members : Bool) : List Decl → Except String (String × String)
  | [] => .ok ("", "")
  | d :: rest =>
    match d with
    | .Field name ty access _ => do
        let type_str ← render_full_typename fuel ty
        let access_str := render_as_neat_access_enum access "Access::..."
        let (fs, ms) ← render_members fuel type_name kind reflect_private_members rest
        if is_member_publicly_accessible access kind reflect_private_members then
          .ok (field_fragment type_name type_str name access_str ++ fs, ms)
        else
          .ok (fs, ms)
    | .MethodDecl name target source access _ => do
        let return_type ← render_full_typename fuel target
        let param_types ← render_method_param_types fuel source
        let access_str := render_as_neat_access_enum access method_access_value_for_none
        let (fs, ms) ← render_members fuel type_name kind reflect_private_members rest
        if is_member_publicly_accessible access kind reflect_private_members then
          .ok (fs, method_fragment type_name return_type param_types name access_str ++ ms)
        else
          .ok (fs, ms)
    | _ => render_members fuel type_name kind reflect_private_members rest

/-- The `render_base` lambda inside `CodeGenerator::render_bases`: the
access string (explicit access, or the enclosing kind's default keyword
for `None`) and the rendered type name, spliced into
`BaseClass{ get_id<{0}>(), {1} }, `. -/
def render_base (fuel : Nat) (default_access : String) (type : Ty) (access : Access) :
    Except String String := do
  let access_string := render_as_neat_access_enum access default_access
  let type_name ← render_full_typename fuel type
  .ok ("BaseClass\x7b get_id<" ++ type_name ++ ">(), " ++ access_string ++ " \x7d, ")

/-- The `TypeSort::Tuple` loop of `CodeGenerator::render_bases`: render
each `Base` element in order; a non-`Base` element only trips a
debug-build assertion and is skipped. -/
def render_bases_tuple (fuel : Nat) (default_access : String) :
    List Ty → Except String String
  | [] => .ok ""
  | t :: rest =>
    match t with
    | .Base bty bacc => do
        let frag ← render_base fuel default_access bty bacc
        let more ← render_bases_tuple fuel default_access rest
        .ok (frag ++ more)
    | _ => render_bases_tuple fuel default_access rest

/-- The `CodeGenerator::render_bases`: the default access keyword is
`private` for a Class and `public` otherwise; a null base specifier
yields no fragments; a single `Base` yields one fragment; a `Tuple`
yields one fragment per `Base` element in order.  The default arm only
trips a debug-build assertion and returns the empty string. -/
def render_bases (fuel : Nat) (kind : TypeBasis) (base : Option Ty) :
    Except String String :=
  let default_access := if kind = TypeBasis.Class then "private" else "public"
  match base with
  | none => .ok ""
  | some b =>
    match b with
    | .Base bty bacc => render_base fuel default_access bty bacc
    | .Tuple elements => render_bases_tuple fuel default_access elements
    | _ => .ok ""

/-- The `CodeGenerator::reflects_private_members`: walk the friendship
trait's expressions.  At the first `NamedDecl` expression the loop
`return`s the comparison of its rendered qualified name against
`Neat::reflect_private_members` and its rendered type against
`void ()` — later friends are not examined.  Friend expressions of any
other sort are logged to stdout and skipped; an exhausted list yields
`false`. -/
def reflects_private_members (fuel : Nat) : List Expr → Except String Bool
  | [] => .ok false
  | e :: rest =>
    match e with
    | .NamedDecl resolution ty => do
        let ns ← render_namespace fuel resolution
        let friend_name := ns ++ render_refered_declaration resolution
        let rendered_type ← render_full_typename fuel ty
        .ok (friend_name == "Neat::reflect_private_members" &&
          rendered_type == "void ()")
    | _ => reflects_private_members fuel rest

/-- The loop body of `to_snake_case`, carrying the `previous_uppercase`
flag (initially `true`, so no separator is ever inserted before the
first character).  `std::isupper`/`std::isalnum`/`std::tolower` in the
C locale agree with `Char.isUpper`/`Char.isAlphanum`/`Char.toLower` on
the ASCII range this tool feeds them. -/
def to_snake_case_go (previous_uppercase : Bool) : List Char → List Char
  | [] => []
  | c :: rest =>
    (if !previous_uppercase && c.isUpper then ['_'] else []) ++
    (if c.isAlphanum then [c.toLower] else ['_']) ++
    to_snake_case_go c.isUpper rest

/-- The `to_snake_case` (file-local helper in `CodeGenerator.cpp`). -/
def to_snake_case (type_name : List Char) : List Char :=
  to_snake_case_go true type_name

/-- The `to_snake_case` applied to a `String`. -/
def to_snake_case_str (s : String) : String :=
  String.mk (to_snake_case s.data)

/-- The `CodeGenerator::render(const ifc::ScopeDeclaration&, ifc::DeclIndex)`:
skip a non-exported scope (`is_type_exported` reads the
`BasicSpecifiers::NonExported` bit of the scope declaration), build the
qualified type name, detect private reflection, render members and
bases, and splice them into one `add_type(...)` registration statement.
`var_name` is computed by the C++ code but never referenced by its
format string. -/
def render_scope (fuel : Nat) (name : String) (kind : TypeBasis) (non_exported : Bool)
    (base : Option Ty) (members : List Decl) (friends : List Expr)
    (home : Option Decl) : Except String String :=
  if non_exported then .ok ""
  else do
    let ns ← render_namespace fuel
      (Decl.Scope name kind non_exported base members friends home)
    let type_name := ns ++ name
    let _var_name := to_snake_case_str type_name ++ "_"
    let reflect_privates ← reflects_private_members fuel friends
    let (fields, methods) ← render_members fuel type_name kind reflect_privates members
    let bases ← render_bases fuel kind base
    .ok ("add_type(\x7b \"" ++ type_name ++ "\", get_id<" ++ type_name ++
      ">(),\n\t\x7b " ++ bases ++ " \x7d,\n\t\x7b " ++ fields ++
      " \x7d,\n\t\x7b " ++ methods ++ " \x7d\n\x7d);\n")

/-- The `CodeGenerator::scan` family: only `Scope` declarations are
dispatched on; a Class or Struct scope is rendered, a Union is silently
skipped, a Namespace is recursed into (concatenating the text produced
for its members in declaration order), and any other scope kind falls
out of the switch with no action. -/
def scan_decl : Nat → Decl → Except String String
  | 0, _ => .error fuelExhausted
  | fuel + 1, d =>
    match d with
    | .Scope name kind non_exported base members friends home =>
      match kind with
      | .Class => render_scope fuel name kind non_exported base members friends home
      | .Struct => render_scope fuel name kind non_exported base members friends home
      | .Union => .ok ""
      | .Namespace => do
          let parts ← members.mapM (scan_decl fuel)
          .ok (strConcat parts)
      | _ => .ok ""
    | _ => .ok ""

/-- The artifact header fields `write_cpp_file` reads: the unit sort and
the unit's name (`file.get_string(TextOffset{unit_index})`). -/
structure FileHeader where
  unit_sort : UnitSort
  unit_name : String
deriving DecidableEq

/-- The slice of `ifc::File` the generator consumes: the header and the
global scope's declaration sequence. -/
structure IfcFile where
  header : FileHeader
  global_scope : List Decl

/-- The banner comment line of the output prologue: a `//` followed by
eighty repeated separator characters (code 61). -/
def banner_line : String := "// " ++ String.mk (List.replicate 80 (Char.ofNat 61)) ++ "\n"

/-- The fixed output document of `CodeGenerator::write_cpp_file`:
prologue boilerplate, `import <module>;`, and the `Neat` namespace whose
`reflect_private_members` body is the accumulated registration code,
followed by the one-time initializer hook. -/
def file_template (module_name code : String) : String :=
  banner_line ++
  "//                      AUTO GENERATED REFLECTION DATA FILE \n" ++
  "//                    Generated by: NeatReflectionCodeGen.exe\n" ++
  "// \n" ++
  "//       Don\x27t modify this file, it will be overwritten when a change is made.\n" ++
  banner_line ++
  "\n" ++
  "#include \"Neat/Reflection.h\"\n" ++
  "#include \"Neat/TemplateTypeId.h\"\n" ++
  "\n" ++
  "import " ++ module_name ++ ";\n" ++
  "\n\n" ++
  "namespace Neat\n\x7b\n\tstatic void reflect_private_members()\n\t\x7b\n" ++
  code ++
  "\n\t\x7d\n\n\tnamespace Detail\n\t\x7b\n\t\tstruct Register\x7b Register()\x7b " ++
  "Neat::reflect_private_members(); \x7d \x7d;\n\t\tstatic Register " ++
  "neat_reflection_data_initialiser\x7b \x7d;\n\t\x7d\n\x7d"

/-- The `CodeGenerator::write_cpp_file`: a non-`Primary` unit sort throws
before the global scope is scanned and before any output text is
produced; otherwise the module name is read from the header, the global
scope is scanned (accumulating the registration code) and the filled
template is written out. -/
def write_cpp_file (fuel : Nat) (f : IfcFile) : Except String String :=
  if f.header.unit_sort ≠ UnitSort.Primary then
    .error ("Currently the tool only supports primary module fragments " ++
      "(originating from a .ixx file from MSVC for example).")
  else do
    let module_name := f.header.unit_name
    let parts ← f.global_scope.mapM (scan_decl fuel)
    .ok (file_template module_name (strConcat parts))

/-- The `int` fundamental type (`TypeBasis::Int`, default precision,
plain sign), used as a concrete sample input. -/
def int_type : Ty := Ty.Fundamental ⟨TypeBasis.Int, TypePrecision.Default, TypeSign.Plain⟩

/-- The `void` fundamental type, used as a concrete sample input. -/
def void_type : Ty := Ty.Fundamental ⟨TypeBasis.Void, TypePrecision.Default, TypeSign.Plain⟩

/-- Sample: the `Neat` namespace scope at global scope. -/
def neat_namespace_decl : Decl :=
  Decl.Scope "Neat" TypeBasis.Namespace false none [] [] none

/-- Sample: the declaration `Neat::reflect_private_members`. -/
def reflect_private_members_decl : Decl :=
  Decl.Function "reflect_private_members" (some neat_namespace_decl)

/-- Sample: the type `void ()`. -/
def void_function_type : Ty := Ty.Function void_type none

/-- Sample: a friend expression naming `Neat::reflect_private_members`
with signature `void ()` — the private-reflection marker. -/
def neat_marker_friend : Expr := Expr.NamedDecl reflect_private_members_decl void_function_type

/-- Sample: a friend expression naming a global function `foo` of
signature `void ()` — not the marker. -/
def other_friend : Expr := Expr.NamedDecl (Decl.Function "foo" none) void_function_type

/-- Spec-side (from the claim): the registration fragment that claim C1
attributes to a `Field` member, `none` when the member is not a field,
fails to render, or is filtered out.  The filter condition is the
claim's: effective access is Public (explicit Public, or None combined
with a Struct contextual default), or the enclosing type is
private-reflecting. -/
def claim_field_fragment (fuel : Nat) (type_name : String) (kind : TypeBasis)
    (rp : Bool) : Decl → Option String
  | .Field name ty access _ =>
    match render_full_typename fuel ty with
    | .ok type_str =>
      if access = Access.Public ∨ (access = Access.None ∧ kind = TypeBasis.Struct) ∨
          rp = true then
        some (field_fragment type_name type_str name
          (render_as_neat_access_enum access "Access::..."))
      else none
    | .error _ => none
  | _ => none

/-- Spec-side (from the claim): the registration fragment that claim C1
attributes to a `Method` member, under the same filter condition as
`claim_field_fragment`. -/
def claim_method_fragment (fuel : Nat) (type_name : String) (kind : TypeBasis)
    (rp : Bool) : Decl → Option String
  | .MethodDecl name target source access _ =>
    match render_full_typename fuel target, render_method_param_types fuel source with
    | .ok return_type, .ok param_types =>
      if access = Access.Public ∨ (access = Access.None ∧ kind = TypeBasis.Struct) ∨
          rp = true then
        some (method_fragment type_name return_type param_types name
          (render_as_neat_access_enum access method_access_value_for_none))
      else none
    | _, _ => none
  | _ => none

/-- Spec-side (from claim C2): the fragment of every `Field` member with
no access filtering at all — what a private-reflecting type emits. -/
def all_field_fragment (fuel : Nat) (type_name : String) : Decl → Option String
  | .Field name ty access _ =>
    match render_full_typename fuel ty with
    | .ok type_str =>
      some (field_fragment type_name type_str name
        (render_as_neat_access_enum access "Access::..."))
    | .error _ => none
  | _ => none

/-- Spec-side (from claim C2): the fragment of every `Method` member
with no access filtering at all. -/
def all_method_fragment (fuel : Nat) (type_name : String) : Decl → Option String
  | .MethodDecl name target source access _ =>
    match render_full_typename fuel target, render_method_param_types fuel source with
    | .ok return_type, .ok param_types =>
      some (method_fragment type_name return_type param_types name
        (render_as_neat_access_enum access method_access_value_for_none))
    | _, _ => none
  | _ => none

/-- Whether a friend expression is a named-declaration expression (the
only sort `reflects_private_members` supports). -/
def is_named_decl_expr : Expr → Bool
  | .NamedDecl _ _ => true
  | _ => false

/-- The first named-declaration friend expression, if any. -/
def first_named_decl (friends : List Expr) : Option Expr :=
  friends.find? is_named_decl_expr

/-- Spec-side (from claim C2): whether one friend expression resolves to
exactly `Neat::reflect_private_members` with signature `void ()`;
non-named-declaration expressions never match. -/
def friend_matches_marker (fuel : Nat) : Expr → Except String Bool
  | .NamedDecl resolution ty => do
      let ns ← render_namespace fuel resolution
      let rendered_type ← render_full_typename fuel ty
      .ok ((ns ++ render_refered_declaration resolution) ==
        "Neat::reflect_private_members" && rendered_type == "void ()")
  | _ => .ok false

/-- The nineteen declaration sorts whose variants cannot carry a home
scope: `render_namespace` throws for exactly these. -/
def homeless_decl_sorts : List DeclSort :=
  [.Parameter, .VendorExtension, .Enumerator, .Temploid, .ExplicitSpecialization,
   .ExplicitInstantiation, .UsingDirective, .Friend, .Expansion, .DeductionGuide,
   .Bitfield, .PartialSpecialization, .Reference, .InheritedConstructor,
   .Barren, .Tuple, .SyntaxTree, .Property, .OutputSegment]

/-- The thirteen declaration sorts `render_namespace` supports. -/
def supported_home_decl_sorts : List DeclSort :=
  [.Variable, .Field, .Scope, .Intrinsic, .Enumeration, .Alias, .Template,
   .Concept, .Function, .Method, .Constructor, .Destructor, .UsingDeclaration]

/-- Spec-side (the amended claim C3): the fundamental-type rendering as
it actually behaves — the sign prefix (`unsigned `), precision keyword
and basis keyword are concatenated for the Default, Long and
unexpected-precision cases, but the `short`, `long long`, `char8_t`,
`char16_t` and `char32_t` precision cases return their keyword alone,
discarding the sign prefix and the basis keyword. -/
def render_fundamental_claim (t : FundamentalType) : String :=
  let sign_prefix := if t.sign = TypeSign.Unsigned then "unsigned " else ""
  match t.precision, t.basis with
  | .Short, _ => "short"
  | .Bit64, _ => "long long"
  | .Bit8, .Char => "char8_t"
  | .Bit16, .Char => "char16_t"
  | .Bit32, .Char => "char32_t"
  | .Default, b => sign_prefix ++ append_basis_keyword "" b
  | .Long, b => sign_prefix ++ "long " ++ append_basis_keyword "" b
  | p, b => sign_prefix ++ unexpected_bitness p ++ append_basis_keyword "" b

/-- Spec-side (from claim C4): a base's effective access string —
its explicit access when present, else the enclosing kind's default
(`private` for a Class, `public` otherwise). -/
def claimed_base_access (kind : TypeBasis) : Access → String
  | .None => if kind = TypeBasis.Class then "private" else "public"
  | .Private => "Neat::Access::Private"
  | .Protected => "Neat::Access::Protected"
  | .Public => "Neat::Access::Public"

/-- Spec-side (from claim C4): the registration fragment of one base. -/
def base_fragment_claim (fuel : Nat) (kind : TypeBasis) (t : Ty) (a : Access) :
    Except String String := do
  let type_name ← render_full_typename fuel t
  .ok ("BaseClass\x7b get_id<" ++ type_name ++ ">(), " ++
    claimed_base_access kind a ++ " \x7d, ")

/-- Spec-side (from claim C4): one fragment per base, in declaration
order. -/
def base_fragments_claim (fuel : Nat) (kind : TypeBasis) :
    List (Ty × Access) → Except String (List String)
  | [] => .ok []
  | p :: rest => do
      let f ← base_fragment_claim fuel kind p.1 p.2
      let more ← base_fragments_claim fuel kind rest
      .ok (f :: more)

/-- Spec-side (from claim C8): the contribution of one character given
its predecessor (`none` for the first character): a separator at every
transition into an uppercase-led word boundary — an uppercase character
preceded by a non-uppercase character, never before the first
character — then the lowercased character, with every non-alphanumeric
character replaced by the separator. -/
def snake_step (cp : Char × Option Char) : List Char :=
  (match cp.2 with
   | some p => if !p.isUpper && cp.1.isUpper then ['_'] else []
   | none => []) ++
  [if cp.1.isAlphanum then cp.1.toLower else '_']

/-- Spec-side (from claim C8): the whole transliteration, pairing each
character with its predecessor. -/
def to_snake_case_claim (s : List Char) : List Char :=
  List.flatten ((s.zip (none :: s.map some)).map snake_step)

theorem strConcat_cons (s : String) (l : List String) :
    strConcat (s :: l) = s ++ strConcat l := rfl

theorem ipma_iff (a : Access) (k : TypeBasis) (rp : Bool) :
    is_member_publicly_accessible a k rp = true ↔
      (a = Access.Public ∨ (a = Access.None ∧ k = TypeBasis.Struct) ∨ rp = true) := by
  cases a <;> simp [is_member_publicly_accessible]
  all_goals tauto

/-- C3 (counterexample): an unsigned 64-bit `int` renders as plain
`"long long"`: the `Bit64` arm of the precision switch returns before
the accumulated `"unsigned "` prefix is used, so the prefix is absent,
contrary to the claim. -/
theorem C3_counterexample_unsigned_bit64 :
    render_fundamental ⟨TypeBasis.Int, TypePrecision.Bit64, TypeSign.Unsigned⟩ =
      "long long" ∧
    "unsigned ".data.isPrefixOf
      (render_fundamental ⟨TypeBasis.Int, TypePrecision.Bit64, TypeSign.Unsigned⟩).data =
      false :=
  ⟨rfl, by decide⟩

/-- C3 (amended): the fundamental-type rendering is the concatenation of
sign prefix, precision keyword and basis keyword for the Default, Long
and unexpected-precision cases, except that the `short`, `long long`,
`char8_t`, `char16_t` and `char32_t` precision cases return their
keyword alone, discarding the sign prefix and the basis keyword. -/
theorem C3_render_fundamental_amended (t : FundamentalType) :
    render_fundamental t = render_fundamental_claim t := by
  obtain ⟨b, p, s⟩ := t
  cases b <;> cases p <;> cases s <;> rfl

/-- C7 (amended): a `Placeholder` type with a recorded elaboration
renders that elaboration; a `Placeholder` with no recorded elaboration
is a recoverable case producing the literal text `"PLACEHOLDER_TYPE"`
(after a debug-build-only assertion), not an internal-consistency
failure. -/
theorem C7_placeholder_amended : ∀ (fuel : Nat),
    (∀ e, render_full_typename (fuel + 1) (Ty.Placeholder (some e)) =
      render_full_typename fuel e) ∧
    render_full_typename (fuel + 1) (Ty.Placeholder none) = .ok "PLACEHOLDER_TYPE" :=
  fun _ => ⟨fun _ => rfl, rfl⟩

/-- C7 (counterexample): a `Placeholder` with no recorded elaboration
renders successfully to placeholder text — it does not abort conversion,
contrary to the claim. -/
theorem C7_counterexample_placeholder_recovers :
    render_full_typename 1 (Ty.Placeholder none) = .ok "PLACEHOLDER_TYPE" := rfl

/-- C9: for every artifact whose header unit sort is not `Primary`,
`write_cpp_file` fails with the unsupported-fragment exception.  The
statement holds for every global scope and even for zero fuel, so the
failure happens before any declaration is scanned and before any output
text is produced. -/
theorem C9_non_primary_rejected : ∀ (fuel : Nat) (f : IfcFile),
    f.header.unit_sort ≠ UnitSort.Primary →
    write_cpp_file fuel f =
      .error "Currently the tool only supports primary module fragments (originating from a .ixx file from MSVC for example)." := by
  intro fuel f h
  simp [write_cpp_file, h]

/-- C9 witness: a `Partition` artifact with a non-empty global scope and
zero scanning fuel is rejected with the exception text (with zero fuel,
any attempt to scan a declaration would instead produce the fuel error,
so the scanner demonstrably never ran). -/
theorem C9_witness :
    write_cpp_file 0 ⟨⟨UnitSort.Partition, "M"⟩,
        [Decl.Scope "S" TypeBasis.Struct false none [] [] none]⟩ =
      .error "Currently the tool only supports primary module fragments (originating from a .ixx file from MSVC for example)." :=
  C9_non_primary_rejected 0 _ (by decide)

/-- C10: a successful namespace resolution is either the empty string or
some non-empty prefix followed by `::` — never the bare `::`: when the
recursively rendered enclosing-scope chain is empty the resolver returns
`""` instead of appending the separator. -/
theorem C10_namespace_result_shape : ∀ (fuel : Nat) (d : Decl) (s : String),
    render_namespace fuel d = .ok s →
    s = "" ∨ ∃ p, p ≠ "" ∧ s = p ++ "::" := by
  intro fuel d s h
  cases fuel with
  | zero => simp [render_namespace] at h
  | succ fuel =>
    simp only [render_namespace] at h
    split at h
    · simp at h
    · simp at h
      exact Or.inl h.symm
    · split at h
      · simp at h
      · split at h
        · simp at h
          exact Or.inl h.symm
        · simp at h
          refine Or.inr ⟨_, ?_, h.symm⟩
          assumption

/-- C10 witness: resolving `Neat::reflect_private_members` gives the
non-empty prefix `"Neat::"`, which satisfies the disjunction. -/
theorem C10_witness :
    ("Neat::" : String) = "" ∨ ∃ p, p ≠ "" ∧ ("Neat::" : String) = p ++ "::" :=
  C10_namespace_result_shape 2 reflect_private_members_decl "Neat::" rfl

/-- C6: resolving the home scope of any of the nineteen unsupported
declaration variants raises the internal-consistency exception (an
`Except.error`, which aborts conversion of the current artifact as it
propagates); for every supported variant whose home-scope reference is
null, the resolver returns the empty prefix. -/
theorem C6_home_scope_policy : ∀ (fuel : Nat) (d : Decl),
    (declSortOf d ∈ homeless_decl_sorts →
      render_namespace (fuel + 1) d =
        .error ("Cannot get the home_scope for a decl sort of: " ++
          declSortName (declSortOf d))) ∧
    (declSortOf d ∈ supported_home_decl_sorts → home_scope_of d = .ok none →
      render_namespace (fuel + 1) d = .ok "") := by
  intro fuel d
  constructor
  · intro hmem
    cases d <;> first
      | rfl
      | simp [declSortOf, homeless_decl_sorts] at hmem
  · intro hmem hnull
    cases d <;>
      simp_all [render_namespace, home_scope_of, declSortOf, supported_home_decl_sorts]

/-- C6 witness: a `Parameter` declaration is rejected with the
exception naming its sort, and a global-scope `Variable` (null home
scope) resolves to the empty prefix. -/
theorem C6_witness :
    render_namespace 1 (Decl.Parameter "p") =
      .error ("Cannot get the home_scope for a decl sort of: " ++
        declSortName (declSortOf (Decl.Parameter "p"))) ∧
    render_namespace 1 (Decl.Variable "v" none) = .ok "" :=
  ⟨(C6_home_scope_policy 0 (Decl.Parameter "p")).1 (by decide),
   (C6_home_scope_policy 0 (Decl.Variable "v" none)).2 (by decide) rfl⟩

theorem to_snake_case_go_eq (rest : List Char) : ∀ (prev : Option Char),
    to_snake_case_go (prev.elim true Char.isUpper) rest =
      List.flatten ((rest.zip (prev :: rest.map some)).map snake_step) := by
  induction rest with
  | nil => intro prev; rfl
  | cons c cs ih =>
    intro prev
    have hih := ih (some c)
    cases prev with
    | none =>
      simp_all [to_snake_case_go, snake_step]
      split <;> simp
    | some p =>
      simp_all [to_snake_case_go, snake_step]
      split <;> simp

/-- C8: the generated unique identifier is obtained by lowercasing,
inserting the separator at every transition into an uppercase-led word
boundary (an uppercase character preceded by a non-uppercase one, never
before the first character), and replacing every non-alphanumeric
character with the separator. -/
theorem C8_to_snake_case_spec (s : List Char) :
    to_snake_case s = to_snake_case_claim s := by
  have h := to_snake_case_go_eq s none
  simpa [to_snake_case, to_snake_case_claim] using h

/-- C5 (amended): a single `Qualified` node prepends its qualifier
keywords (`const ` then `volatile `, restrict dropped) to the underlying
render, and the combined const-volatile node renders identically to the
nesting with the `const` node outermost; the claim's universal
structural-equivalence statement fails for the opposite nesting (see the
counterexample). -/
theorem C5_qualified_amended : ∀ (fuel : Nat) (q : Qualifiers) (t : Ty),
    (render_full_typename (fuel + 1) (Ty.Qualified q t) =
      (render_full_typename fuel t).map (fun s => render_qualifiers q ++ s)) ∧
    (∀ s, render_full_typename fuel t = .ok s →
      render_full_typename (fuel + 2) (Ty.Qualified ⟨true, false, false⟩
          (Ty.Qualified ⟨false, true, false⟩ t)) = .ok ("const volatile " ++ s) ∧
      render_full_typename (fuel + 1) (Ty.Qualified ⟨true, true, false⟩ t) =
        .ok ("const volatile " ++ s)) := by
  intro fuel q t
  refine ⟨?_, ?_⟩
  · cases h : render_full_typename fuel t <;>
      simp [render_full_typename, h, Except.map]
    all_goals rfl
  · intro s h
    have h1 : render_full_typename (fuel + 1) (Ty.Qualified ⟨false, true, false⟩ t) =
        .ok ("volatile " ++ s) := by
      rw [show render_full_typename (fuel + 1) (Ty.Qualified ⟨false, true, false⟩ t) =
          Except.bind (render_full_typename fuel t)
            (fun x => Except.ok (render_qualifiers ⟨false, true, false⟩ ++ x)) from rfl, h]
      rfl
    constructor
    · rw [show render_full_typename (fuel + 2) (Ty.Qualified ⟨true, false, false⟩
            (Ty.Qualified ⟨false, true, false⟩ t)) =
          Except.bind (render_full_typename (fuel + 1) (Ty.Qualified ⟨false, true, false⟩ t))
            (fun x => Except.ok (render_qualifiers ⟨true, false, false⟩ ++ x)) from rfl, h1]
      show Except.ok ("const " ++ ("volatile " ++ s)) = Except.ok ("const volatile " ++ s)
      rw [← String.append_assoc]
      rfl
    · rw [show render_full_typename (fuel + 1) (Ty.Qualified ⟨true, true, false⟩ t) =
          Except.bind (render_full_typename fuel t)
            (fun x => Except.ok (render_qualifiers ⟨true, true, false⟩ ++ x)) from rfl, h]
      rfl

/-- C5 (counterexample): two structurally-equivalent qualified inputs —
the same {const, volatile} qualifier set over `int`, once as a single
combined node and once nested with `volatile` outermost — render to
different strings, contradicting the claim. -/
theorem C5_counterexample_qualifier_nesting :
    render_full_typename 3 (Ty.Qualified ⟨false, true, false⟩
        (Ty.Qualified ⟨true, false, false⟩ int_type)) = .ok "volatile const int" ∧
    render_full_typename 3 (Ty.Qualified ⟨true, true, false⟩ int_type) =
      .ok "const volatile int" ∧
    ("volatile const int" : String) ≠ "const volatile int" :=
  ⟨rfl, rfl, by decide⟩

/-- C5 witness: the amended theorem applied to `int` at fuel 1. -/
theorem C5_witness :
    render_full_typename 3 (Ty.Qualified ⟨true, false, false⟩
        (Ty.Qualified ⟨false, true, false⟩ int_type)) = .ok ("const volatile " ++ "int") ∧
    render_full_typename 2 (Ty.Qualified ⟨true, true, false⟩ int_type) =
      .ok ("const volatile " ++ "int") :=
  (C5_qualified_amended 1 ⟨true, true, false⟩ int_type).2 "int" rfl

theorem ebind_ok {α β : Type} (v : α) (f : α → Except String β) :
    (do let x ← Except.ok v; f x) = f v := rfl

theorem ebind_err {α β : Type} (e : String) (f : α → Except String β) :
    (do let x ← Except.error e; f x) = (Except.error e : Except String β) := rfl

theorem render_members_characterization (fuel : Nat) (tn : String) (kind : TypeBasis)
    (rp : Bool) : ∀ (ms : List Decl) (out : String × String),
      render_members fuel tn kind rp ms = .ok out →
      out.1 = strConcat (ms.filterMap (claim_field_fragment fuel tn kind rp)) ∧
      out.2 = strConcat (ms.filterMap (claim_method_fragment fuel tn kind rp)) := by
  intro ms
  induction ms with
  | nil =>
    intro out h
    simp [render_members] at h
    cases h
    exact ⟨rfl, rfl⟩
  | cons d rest ih =>
    intro out h
    cases d
    case Field name ty access home =>
      simp only [render_members] at h
      cases hty : render_full_typename fuel ty with
      | error e =>
        rw [hty, ebind_err] at h
        simp at h
      | ok ts =>
        rw [hty, ebind_ok] at h
        cases hrm : render_members fuel tn kind rp rest with
        | error e =>
          rw [hrm, ebind_err] at h
          simp at h
        | ok p =>
          obtain ⟨fs, mss⟩ := p
          rw [hrm, ebind_ok] at h
          have ihf : fs = strConcat (rest.filterMap (claim_field_fragment fuel tn kind rp)) :=
            (ih (fs, mss) hrm).1
          have ihm : mss = strConcat (rest.filterMap (claim_method_fragment fuel tn kind rp)) :=
            (ih (fs, mss) hrm).2
          by_cases hip : is_member_publicly_accessible access kind rp = true
          · have hcond := (ipma_iff access kind rp).mp hip
            rw [if_pos hip] at h
            injection h with h
            subst h
            constructor
            · simp only [List.filterMap_cons, claim_field_fragment, hty, if_pos hcond,
                strConcat_cons]
              exact congrArg _ ihf
            · simp only [List.filterMap_cons, claim_method_fragment]
              exact ihm
          · have hcond := (ipma_iff access kind rp).not.mp hip
            rw [if_neg hip] at h
            injection h with h
            subst h
            constructor
            · simp only [List.filterMap_cons, claim_field_fragment, hty, if_neg hcond]
              exact ihf
            · simp only [List.filterMap_cons, claim_method_fragment]
              exact ihm
    case MethodDecl name target source access home =>
      simp only [render_members] at h
      cases hty : render_full_typename fuel target with
      | error e =>
        rw [hty, ebind_err] at h
        simp at h
      | ok ret =>
        rw [hty, ebind_ok] at h
        cases hpt : render_method_param_types fuel source with
        | error e =>
          rw [hpt, ebind_err] at h
          simp at h
        | ok params =>
          rw [hpt, ebind_ok] at h
          cases hrm : render_members fuel tn kind rp rest with
          | error e =>
            rw [hrm, ebind_err] at h
            simp at h
          | ok p =>
            obtain ⟨fs, mss⟩ := p
            rw [hrm, ebind_ok] at h
            have ihf : fs = strConcat (rest.filterMap (claim_field_fragment fuel tn kind rp)) :=
              (ih (fs, mss) hrm).1
            have ihm : mss = strConcat (rest.filterMap (claim_method_fragment fuel tn kind rp)) :=
              (ih (fs, mss) hrm).2
            by_cases hip : is_member_publicly_accessible access kind rp = true
            · have hcond := (ipma_iff access kind rp).mp hip
              rw [if_pos hip] at h
              injection h with h
              subst h
              constructor
              · simp only [List.filterMap_cons, claim_field_fragment]
                exact ihf
              · simp only [List.filterMap_cons, claim_method_fragment, hty, hpt,
                  if_pos hcond, strConcat_cons]
                exact congrArg _ ihm
            · have hcond := (ipma_iff access kind rp).not.mp hip
              rw [if_neg hip] at h
              injection h with h
              subst h
              constructor
              · simp only [List.filterMap_cons, claim_field_fragment]
                exact ihf
              · simp only [List.filterMap_cons, claim_method_fragment, hty, hpt,
                  if_neg hcond]
                exact ihm
    all_goals exact ih out h

/-- C1 (spec-modelled filter): a registration fragment is emitted for
exactly those Field/Method members whose effective access is Public
(explicit Public, or None combined with a Struct contextual default), or
whose enclosing type is private-reflecting: a successful member walk
produces precisely the concatenation, in declaration order, of the
per-member fragments whose filter condition holds (see
`claim_field_fragment` / `claim_method_fragment`); in particular a
member with access None inside a Class contributes nothing unless the
type is private-reflecting. -/
theorem C1_member_emission_iff (fuel : Nat) (type_name : String) (kind : TypeBasis)
    (rp : Bool) (ms : List Decl) (out : String × String)
    (h : render_members fuel type_name kind rp ms = .ok out) :
    out.1 = strConcat (ms.filterMap (claim_field_fragment fuel type_name kind rp)) ∧
    out.2 = strConcat (ms.filterMap (claim_method_fragment fuel type_name kind rp)) :=
  render_members_characterization fuel type_name kind rp ms out h

/-- Concrete member list for the C1 witness: a public field is emitted,
an access-None field inside a Class (contextual default Private) and an
access-None method are not. -/
def c1_members : List Decl :=
  [Decl.Field "hidden" int_type Access.None none,
   Decl.Field "shown" int_type Access.Public none,
   Decl.MethodDecl "m" void_type none Access.None none]

/-- C1 witness: the theorem applied to `c1_members` in a Class without
private reflection — only the public field's fragment appears. -/
theorem C1_witness :
    (("Field::create<T, int, &T::shown>(\"shown\", Neat::Access::Public), ", "") :
        String × String).1 =
      strConcat (c1_members.filterMap (claim_field_fragment 3 "T" TypeBasis.Class false)) ∧
    (("Field::create<T, int, &T::shown>(\"shown\", Neat::Access::Public), ", "") :
        String × String).2 =
      strConcat (c1_members.filterMap (claim_method_fragment 3 "T" TypeBasis.Class false)) :=
  C1_member_emission_iff 3 "T" TypeBasis.Class false c1_members
    ("Field::create<T, int, &T::shown>(\"shown\", Neat::Access::Public), ", "") rfl

theorem reflects_eq_first_named (fuel : Nat) : ∀ (fs : List Expr),
    reflects_private_members fuel fs =
      match first_named_decl fs with
      | none => .ok false
      | some e => friend_matches_marker fuel e := by
  intro fs
  induction fs with
  | nil => rfl
  | cons e rest ih =>
    cases e with
    | NamedDecl r t => rfl
    | TemplateId => exact ih
    | Literal => exact ih

theorem claim_field_fragment_rp_true (fuel : Nat) (tn : String) (kind : TypeBasis) :
    ∀ d, claim_field_fragment fuel tn kind true d = all_field_fragment fuel tn d := by
  intro d
  cases d
  case Field n t a h =>
    simp only [claim_field_fragment, all_field_fragment]
    cases hty : render_full_typename fuel t <;> simp [hty]
  all_goals rfl

theorem claim_method_fragment_rp_true (fuel : Nat) (tn : String) (kind : TypeBasis) :
    ∀ d, claim_method_fragment fuel tn kind true d = all_method_fragment fuel tn d := by
  intro d
  cases d
  case MethodDecl n target source a h =>
    simp only [claim_method_fragment, all_method_fragment]
    cases hty : render_full_typename fuel target <;>
      cases hpt : render_method_param_types fuel source <;> simp [hty, hpt]
  all_goals rfl

/-- C2 (amended): the private-reflecting flag is decided by the FIRST
friend whose expression is a named declaration — the loop returns at
that friend, so a later matching friend is never examined; friends of
unsupported expression sorts before it are logged and skipped, and a
list with no named-declaration friend yields `false`.  When the flag is
true, a successful member walk emits the fragments of ALL Field/Method
members regardless of access. -/
theorem C2_private_reflection_amended :
    (∀ (fuel : Nat) (friends : List Expr),
      reflects_private_members fuel friends =
        match first_named_decl friends with
        | none => .ok false
        | some e => friend_matches_marker fuel e) ∧
    (∀ (fuel : Nat) (tn : String) (kind : TypeBasis) (ms : List Decl)
        (out : String × String),
      render_members fuel tn kind true ms = .ok out →
      out.1 = strConcat (ms.filterMap (all_field_fragment fuel tn)) ∧
      out.2 = strConcat (ms.filterMap (all_method_fragment fuel tn))) := by
  constructor
  · intro fuel fs
    exact reflects_eq_first_named fuel fs
  · intro fuel tn kind ms out h
    have hc := render_members_characterization fuel tn kind true ms out h
    rw [funext (claim_field_fragment_rp_true fuel tn kind),
      funext (claim_method_fragment_rp_true fuel tn kind)] at hc
    exact hc

/-- C2 (counterexample): a friend list whose first named-declaration
friend does not match but whose second friend is exactly the
`Neat::reflect_private_members` / `void ()` marker: some declared friend
matches, yet the flag is `false`, contradicting the claim's
"if and only if some declared friend ... matches". -/
theorem C2_counterexample_first_named_decl_decides :
    reflects_private_members 9 [other_friend, neat_marker_friend] = .ok false ∧
    friend_matches_marker 9 neat_marker_friend = .ok true :=
  ⟨rfl, rfl⟩

/-- C2 witness: a private field of a Class is emitted when the
private-reflecting flag is true. -/
theorem C2_witness :
    (("Field::create<T, int, &T::secret>(\"secret\", Neat::Access::Private), ", "") :
        String × String).1 =
      strConcat ([Decl.Field "secret" int_type Access.Private none].filterMap
        (all_field_fragment 3 "T")) ∧
    (("Field::create<T, int, &T::secret>(\"secret\", Neat::Access::Private), ", "") :
        String × String).2 =
      strConcat ([Decl.Field "secret" int_type Access.Private none].filterMap
        (all_method_fragment 3 "T")) :=
  C2_private_reflection_amended.2 3 "T" TypeBasis.Class
    [Decl.Field "secret" int_type Access.Private none]
    ("Field::create<T, int, &T::secret>(\"secret\", Neat::Access::Private), ", "") rfl

theorem render_base_eq_claim (fuel : Nat) (kind : TypeBasis) (t : Ty) (a : Access) :
    render_base fuel (if kind = TypeBasis.Class then "private" else "public") t a =
      base_fragment_claim fuel kind t a := by
  cases a <;> cases hty : render_full_typename fuel t <;>
    simp [render_base, base_fragment_claim, render_as_neat_access_enum,
      claimed_base_access, hty]

theorem render_bases_tuple_eq (fuel : Nat) (kind : TypeBasis) :
    ∀ (pairs : List (Ty × Access)) (frags : List String),
      base_fragments_claim fuel kind pairs = .ok frags →
      render_bases_tuple fuel (if kind = TypeBasis.Class then "private" else "public")
        (pairs.map (fun p => Ty.Base p.1 p.2)) = .ok (strConcat frags) := by
  intro pairs
  induction pairs with
  | nil =>
    intro frags h
    simp [base_fragments_claim] at h
    cases h
    rfl
  | cons p ps ih =>
    intro frags h
    simp only [base_fragments_claim] at h
    cases hbf : base_fragment_claim fuel kind p.1 p.2 with
    | error e =>
      rw [hbf, ebind_err] at h
      simp at h
    | ok f =>
      rw [hbf, ebind_ok] at h
      cases hbr : base_fragments_claim fuel kind ps with
      | error e =>
        rw [hbr, ebind_err] at h
        simp at h
      | ok more =>
        rw [hbr, ebind_ok] at h
        injection h with h
        subst h
        simp only [List.map_cons, render_bases_tuple]
        rw [render_base_eq_claim, hbf, ebind_ok, ih more hbr, ebind_ok]
        rfl

/-- C4: a null base specifier emits zero base fragments; a single `Base`
specifier emits exactly its one fragment; a `Tuple` of `Base` specifiers
emits exactly one fragment per base, in declaration order, with no
deduplication or reordering (the output is the in-order concatenation of
the per-base fragments); each base's access string is its explicit
access when present and otherwise the enclosing kind's default —
`private` for a Class, `public` for a Struct (see
`claimed_base_access`). -/
theorem C4_base_emission (fuel : Nat) (kind : TypeBasis) :
    (render_bases fuel kind none = .ok "") ∧
    (∀ (t : Ty) (a : Access),
      render_bases fuel kind (some (Ty.Base t a)) = base_fragment_claim fuel kind t a) ∧
    (∀ (pairs : List (Ty × Access)) (frags : List String),
      base_fragments_claim fuel kind pairs = .ok frags →
      render_bases fuel kind (some (Ty.Tuple (pairs.map (fun p => Ty.Base p.1 p.2)))) =
        .ok (strConcat frags)) := by
  refine ⟨rfl, ?_, ?_⟩
  · intro t a
    exact render_base_eq_claim fuel kind t a
  · intro pairs frags h
    exact render_bases_tuple_eq fuel kind pairs frags h

/-- C4 witness: a Class with a two-base tuple — an access-None base
(default `private`) and an explicitly Public base — emits exactly two
fragments in declaration order. -/
theorem C4_witness :
    render_bases 1 TypeBasis.Class (some (Ty.Tuple
        ([((int_type, Access.None) : Ty × Access),
          (int_type, Access.Public)].map (fun p => Ty.Base p.1 p.2)))) =
      .ok (strConcat ["BaseClass\x7b get_id<int>(), private \x7d, ",
        "BaseClass\x7b get_id<int>(), Neat::Access::Public \x7d, "]) :=
  (C4_base_emission 1 TypeBasis.Class).2.2
    [(int_type, Access.None), (int_type, Access.Public)]
    ["BaseClass\x7b get_id<int>(), private \x7d, ",
     "BaseClass\x7b get_id<int>(), Neat::Access::Public \x7d, "] rfl
